import Mathlib

/-!
Shallow embedding of `src/lib.rs` of `roam-db-find-referenced-files-rs`.

The crate computes the transitive closure of note-to-note and note-to-asset
references of an org-roam SQLite database.  We model:

* `RoamFile` (an org-roam note identifier, backed by its file path) and
  file-system paths as `String`;
* the backing SQLite store as a `Store`: the outcomes of preparing the two
  statements (`conn.prepare(..).unwrap()` in the source) and, for each note,
  the rows returned by the two parameterized queries.  A query-level failure
  is the outer `Except.error`; a row whose decoding (`row.get(0)?`) fails is
  an inner `Except.error`;
* the real file system (used only by `Path::canonicalize`, `parent`, `join`,
  `is_absolute`) as an abstract `FS` record;
* the BFS loop of `find_file_references_recursive` with an explicit fuel
  parameter.  The Rust loop has no fuel; `RunResult.timeout` is a model
  artifact marking fuel exhaustion, and the concrete-run theorems show the
  result is stable for every sufficient fuel (the loop terminates).
  `RunResult.panic` models the `unwrap()` panic on a failed `prepare`:
  a panic is not a returned `Result` value.
-/

namespace RoamRefs

/-- Note identifier: `RoamFile` wraps the note's file path (a string). -/
abbrev RoamFile := String

/-- File-system path (`PathBuf` in the source). -/
abbrev FsPath := String

/-- Store / decoding error message (`rusqlite::Error` under `anyhow`). -/
abbrev Err := String

/-- Abstract model of the real file system operations used by
`try_resolve_asset_path`: `Path::is_absolute`, `Path::parent`,
`Path::join` and `Path::canonicalize` (the last returns `None` when the
combined path does not exist / cannot be resolved, modelling `.ok()`). -/
structure FS where
  isAbsolute : FsPath → Bool
  parent : FsPath → Option FsPath
  join : FsPath → FsPath → FsPath
  canonicalize : FsPath → Option FsPath

/-- Model of the backing SQLite store, as seen through the two prepared
statements of `find_file_references_recursive`.

`refPrepare` / `assetPrepare`: outcome of `conn.prepare(...)` for the
referenced-notes statement (Query A) and the referenced-assets statement
(Query B); the source calls `.unwrap()` on both.

`refRows n` / `assetRows n`: outcome of `stmt.query_map([n], ..)` for note
`n`.  The outer `Except` is a query-level failure; each row is itself an
`Except`, `Except.error` when decoding that row (`row.get(0)?`) fails. -/
structure Store where
  refPrepare : Except Err Unit
  assetPrepare : Except Err Unit
  refRows : RoamFile → Except Err (List (Except Err RoamFile))
  assetRows : RoamFile → Except Err (List (Except Err RoamFile))

/-- Result record returned by the lookup and by the closure computation
(`pub struct ReferencedFiles`). -/
structure ReferencedFiles where
  notes : List RoamFile
  assets : List FsPath
deriving DecidableEq, Repr

/-- Embedding of `try_resolve_asset_path(note_file, asset)`: an absolute
asset target is returned as-is; otherwise the target is joined onto the
parent of the referencing note's path and canonicalized, any failure
(`?` on `parent()`, `.ok()?` on `canonicalize()`) yielding `none`. -/
def try_resolve_asset_path (fs : FS) (note_file asset : FsPath) : Option FsPath :=
  if fs.isAbsolute asset then
    some asset
  else
    match fs.parent note_file with
    | none => none
    | some p => fs.canonicalize (fs.join p asset)

/-- Sequencing of row results, modelling
`rows.collect::<Result<Vec<_>, _>>()`: the first row error aborts the
collection. -/
def collectExcept {α : Type} : List (Except Err α) → Except Err (List α)
  | [] => .ok []
  | .error e :: _ => .error e
  | .ok a :: rest =>
    match collectExcept rest with
    | .error e => .error e
    | .ok l => .ok (a :: l)

/-- Mapping of one asset row through the body of the second `query_map`
closure followed by `r.ok().flatten()`: a row that decoded to target `a`
contributes `try_resolve_asset_path`'s answer, a row whose decoding failed
is silently dropped. -/
def assetOfRow (fs : FS) (path : RoamFile) : Except Err RoamFile → Option FsPath
  | .ok a => try_resolve_asset_path fs path a
  | .error _ => none

/-- Embedding of `find_files_referenced_by(ref_stmt, asset_stmt, path)`:
run Query A, collect the decoded note rows (first decode error aborts via
`?`), then run Query B and keep the successfully decoded and resolved
asset targets (`filter_map(|r| r.ok().flatten())`). -/
def find_files_referenced_by (store : Store) (fs : FS) (path : RoamFile) :
    Except Err ReferencedFiles :=
  match store.refRows path with
  | .error e => .error e
  | .ok rows =>
    match collectExcept rows with
    | .error e => .error e
    | .ok notes =>
      match store.assetRows path with
      | .error e => .error e
      | .ok assetRows => .ok ⟨notes, assetRows.filterMap (assetOfRow fs path)⟩

/-- Ephemeral traversal state of one closure computation: `visited`
(a `HashSet`, modelled as a duplicate-free list in insertion order),
`queue` (a `VecDeque`), `allAssets` (a `HashSet` of resolved paths) and
`notes` (the ordered result `Vec`). -/
structure TState where
  visited : List RoamFile
  queue : List RoamFile
  allAssets : List FsPath
  notes : List RoamFile
deriving DecidableEq, Repr

/-- One `if visited.insert(x.clone()) { queue.push_back(x); notes.push(x) }`
step, used both for seeding and for newly discovered references. -/
def insertNew (st : TState) (x : RoamFile) : TState :=
  if x ∈ st.visited then st
  else ⟨st.visited ++ [x], st.queue ++ [x], st.allAssets, st.notes ++ [x]⟩

/-- One `HashSet::insert` of an asset path. -/
def insertAsset (s : List FsPath) (x : FsPath) : List FsPath :=
  if x ∈ s then s else s ++ [x]

/-- Embedding of `all_assets.extend(assets)` on the set of collected
assets. -/
def extendDedup (s : List FsPath) (xs : List FsPath) : List FsPath :=
  xs.foldl insertAsset s

/-- State after processing a non-excluded note whose lookup returned `rf`,
with `rest` the remainder of the queue: every referenced note not yet
visited is inserted into `visited`, pushed on the queue and appended to
`notes`; then all of `rf.assets` are unioned into the asset set. -/
def stepState (st : TState) (rest : List RoamFile) (rf : ReferencedFiles) : TState :=
  let st2 := rf.notes.foldl insertNew ⟨st.visited, rest, st.allAssets, st.notes⟩
  ⟨st2.visited, st2.queue, extendDedup st2.allAssets rf.assets, st2.notes⟩

/-- Outcome of one invocation of the closure computation.  `ok` and `error`
are the two values of the Rust `anyhow::Result`; `panic` models the
`unwrap()` panic on a failed `prepare` (not a returned value); `timeout`
is the fuel-exhaustion artifact of the embedding. -/
inductive RunResult where
  | ok (r : ReferencedFiles)
  | error (e : Err)
  | panic
  | timeout
deriving DecidableEq, Repr

/-- Embedding of the `while let Some(current) = queue.pop_front()` loop:
an excluded note is skipped entirely; otherwise its lookup either fails —
aborting the whole computation with that error via `?` — or extends the
traversal state.  When the queue is empty the accumulated notes and the
asset set are returned. -/
def refsLoop (store : Store) (fs : FS) (exclude : RoamFile → Bool) :
    Nat → TState → RunResult
  | 0, _ => .timeout
  | fuel + 1, st =>
    match st.queue with
    | [] => .ok ⟨st.notes, st.allAssets⟩
    | current :: rest =>
      if exclude current then
        refsLoop store fs exclude fuel ⟨st.visited, rest, st.allAssets, st.notes⟩
      else
        match find_files_referenced_by store fs current with
        | .error e => .error e
        | .ok rf => refsLoop store fs exclude fuel (stepState st rest rf)

/-- Seeding phase: each input path is inserted if not already visited,
in input order (`for path in paths { if visited.insert(..) { .. } }`). -/
def initState (paths : List RoamFile) : TState :=
  paths.foldl insertNew ⟨[], [], [], []⟩

/-- Embedding of `find_file_references_recursive(conn, paths, exclude)`:
prepare the two statements (`unwrap()` panics on failure), seed the
traversal state from `paths`, and run the BFS loop. -/
def find_file_references_recursive (store : Store) (fs : FS)
    (paths : List RoamFile) (exclude : RoamFile → Bool) (fuel : Nat) : RunResult :=
  match store.refPrepare with
  | .error _ => .panic
  | .ok _ =>
    match store.assetPrepare with
    | .error _ => .panic
    | .ok _ => refsLoop store fs exclude fuel (initState paths)

/-! ### Helper lemmas about the traversal state -/

theorem preTrans {α : Type} {l₁ l₂ l₃ : List α} (h₁ : l₁ <+: l₂) (h₂ : l₂ <+: l₃) :
    l₁ <+: l₃ := by
  obtain ⟨t₁, rfl⟩ := h₁
  obtain ⟨t₂, rfl⟩ := h₂
  exact ⟨t₁ ++ t₂, (List.append_assoc _ _ _).symm⟩

theorem preSubset {α : Type} {l₁ l₂ : List α} {x : α} (h : l₁ <+: l₂) (hx : x ∈ l₁) :
    x ∈ l₂ := by
  obtain ⟨t, rfl⟩ := h
  exact List.mem_append_left _ hx

/-- Invariant of the visited set versus the result list: the `notes` list is
duplicate-free and has exactly the members of `visited` (the `HashSet` and
the `Vec` of the source are kept in lockstep). -/
def Inv (visited notes : List RoamFile) : Prop :=
  notes.Nodup ∧ ∀ x, x ∈ visited ↔ x ∈ notes

theorem nodup_append_one {α : Type} {l : List α} {x : α} (h : l.Nodup) (hx : x ∉ l) :
    (l ++ [x]).Nodup := by
  rw [List.nodup_append]
  refine ⟨h, List.nodup_singleton x, fun a ha hax => ?_⟩
  rw [List.mem_singleton] at hax
  subst hax
  exact hx ha

theorem insertNew_notes_mono (st : TState) (x : RoamFile) :
    st.notes <+: (insertNew st x).notes := by
  unfold insertNew
  by_cases h : x ∈ st.visited
  · simp [h]
  · simp [h]

theorem foldl_insertNew_notes_mono (l : List RoamFile) (st : TState) :
    st.notes <+: (l.foldl insertNew st).notes := by
  induction l generalizing st with
  | nil => exact ⟨[], List.append_nil _⟩
  | cons a l ih => exact preTrans (insertNew_notes_mono st a) (ih (insertNew st a))

theorem insertNew_queue_mono (st : TState) (x : RoamFile) :
    st.queue <+: (insertNew st x).queue := by
  unfold insertNew
  by_cases h : x ∈ st.visited
  · simp [h]
  · simp [h]

theorem foldl_insertNew_queue_mono (l : List RoamFile) (st : TState) :
    st.queue <+: (l.foldl insertNew st).queue := by
  induction l generalizing st with
  | nil => exact ⟨[], List.append_nil _⟩
  | cons a l ih => exact preTrans (insertNew_queue_mono st a) (ih (insertNew st a))

theorem insertNew_allAssets (st : TState) (x : RoamFile) :
    (insertNew st x).allAssets = st.allAssets := by
  unfold insertNew
  by_cases h : x ∈ st.visited <;> simp [h]

theorem foldl_insertNew_allAssets (l : List RoamFile) (st : TState) :
    (l.foldl insertNew st).allAssets = st.allAssets := by
  induction l generalizing st with
  | nil => rfl
  | cons a l ih => rw [List.foldl_cons, ih, insertNew_allAssets]

theorem insertNew_Inv {st : TState} (h : Inv st.visited st.notes) (x : RoamFile) :
    Inv (insertNew st x).visited (insertNew st x).notes := by
  obtain ⟨hnd, hiff⟩ := h
  unfold insertNew
  by_cases hx : x ∈ st.visited
  · simpa [hx] using ⟨hnd, hiff⟩
  · have hxn : x ∉ st.notes := fun hc => hx ((hiff x).mpr hc)
    simp only [hx, if_false]
    constructor
    · exact nodup_append_one hnd hxn
    · intro y
      simp only [List.mem_append, List.mem_singleton]
      exact or_congr_left (hiff y)

theorem foldl_insertNew_Inv {st : TState} (h : Inv st.visited st.notes)
    (l : List RoamFile) :
    Inv (l.foldl insertNew st).visited (l.foldl insertNew st).notes := by
  induction l generalizing st with
  | nil => exact h
  | cons a l ih => exact ih (insertNew_Inv h a)

theorem insertNew_visited_mono (st : TState) (x : RoamFile) :
    st.visited ⊆ (insertNew st x).visited := by
  unfold insertNew
  by_cases h : x ∈ st.visited <;> simp [h]

theorem mem_insertNew_self (st : TState) (x : RoamFile) :
    x ∈ (insertNew st x).visited := by
  unfold insertNew
  by_cases h : x ∈ st.visited <;> simp [h]

theorem foldl_insertNew_visited_mono (l : List RoamFile) (st : TState) :
    st.visited ⊆ (l.foldl insertNew st).visited := by
  induction l generalizing st with
  | nil => exact fun _ h => h
  | cons a l ih =>
    exact fun y hy => ih (insertNew st a) (insertNew_visited_mono st a hy)

theorem mem_foldl_insertNew {l : List RoamFile} {x : RoamFile} (st : TState)
    (hx : x ∈ l) : x ∈ (l.foldl insertNew st).visited := by
  induction l generalizing st with
  | nil => cases hx
  | cons a l ih =>
    rcases List.mem_cons.mp hx with h | h
    · subst h
      exact foldl_insertNew_visited_mono l (insertNew st x)
        (mem_insertNew_self st x)
    · exact ih (insertNew st a) h

theorem insertAsset_nodup {s : List FsPath} (h : s.Nodup) (x : FsPath) :
    (insertAsset s x).Nodup := by
  unfold insertAsset
  by_cases hx : x ∈ s
  · simpa [hx] using h
  · simp only [hx, if_false]
    exact nodup_append_one h hx

theorem extendDedup_nodup {s : List FsPath} (h : s.Nodup) (xs : List FsPath) :
    (extendDedup s xs).Nodup := by
  unfold extendDedup
  induction xs generalizing s with
  | nil => exact h
  | cons a xs ih => exact ih (insertAsset_nodup h a)

theorem stepState_notes_mono (st : TState) (rest : List RoamFile)
    (rf : ReferencedFiles) : st.notes <+: (stepState st rest rf).notes :=
  foldl_insertNew_notes_mono rf.notes ⟨st.visited, rest, st.allAssets, st.notes⟩

theorem stepState_Inv {st : TState} (h : Inv st.visited st.notes)
    (rest : List RoamFile) (rf : ReferencedFiles) :
    Inv (stepState st rest rf).visited (stepState st rest rf).notes :=
  @foldl_insertNew_Inv ⟨st.visited, rest, st.allAssets, st.notes⟩ h rf.notes

theorem stepState_assets_nodup {st : TState} (h : st.allAssets.Nodup)
    (rest : List RoamFile) (rf : ReferencedFiles) :
    (stepState st rest rf).allAssets.Nodup := by
  show (extendDedup
    (rf.notes.foldl insertNew ⟨st.visited, rest, st.allAssets, st.notes⟩).allAssets
    rf.assets).Nodup
  rw [foldl_insertNew_allAssets]
  exact extendDedup_nodup h rf.assets

/-- Main loop induction: whenever the BFS loop completes with `Except.ok`,
the notes accumulated so far persist as an initial segment of the final
notes, the visited/notes invariant yields a duplicate-free final notes
list, and a duplicate-free asset accumulator yields a duplicate-free final
asset list. -/
theorem refsLoop_ok_props (store : Store) (fs : FS) (ex : RoamFile → Bool) :
    ∀ fuel st r, refsLoop store fs ex fuel st = .ok r →
      (st.notes <+: r.notes) ∧
      (Inv st.visited st.notes → r.notes.Nodup) ∧
      (st.allAssets.Nodup → r.assets.Nodup) := by
  intro fuel
  induction fuel with
  | zero =>
    intro st r h
    exact absurd h (by simp [refsLoop])
  | succ n ih =>
    rintro ⟨v, q, a, ns⟩ r h
    cases q with
    | nil =>
      simp only [refsLoop] at h
      cases h
      exact ⟨⟨[], List.append_nil _⟩, fun hinv => hinv.1, fun hnd => hnd⟩
    | cons c rest =>
      simp only [refsLoop] at h
      cases hex : ex c with
      | true =>
        rw [hex] at h
        simp only [if_true] at h
        obtain ⟨h₁, h₂, h₃⟩ := ih ⟨v, rest, a, ns⟩ r h
        exact ⟨h₁, h₂, h₃⟩
      | false =>
        rw [hex] at h
        simp only [Bool.false_eq_true, if_false] at h
        cases hf : find_files_referenced_by store fs c with
        | error e =>
          rw [hf] at h
          cases h
        | ok rf =>
          rw [hf] at h
          obtain ⟨h₁, h₂, h₃⟩ := ih (stepState ⟨v, c :: rest, a, ns⟩ rest rf) r h
          refine ⟨preTrans (stepState_notes_mono ⟨v, c :: rest, a, ns⟩ rest rf) h₁,
            fun hinv => h₂ (stepState_Inv hinv rest rf),
            fun hnd => h₃ (stepState_assets_nodup hnd rest rf)⟩

theorem Inv_initState (paths : List RoamFile) :
    Inv (initState paths).visited (initState paths).notes :=
  @foldl_insertNew_Inv ⟨[], [], [], []⟩ ⟨List.nodup_nil, fun _ => Iff.rfl⟩ paths

theorem initState_allAssets (paths : List RoamFile) :
    (initState paths).allAssets = [] :=
  foldl_insertNew_allAssets paths ⟨[], [], [], []⟩

theorem mem_initState_notes {paths : List RoamFile} {s : RoamFile} (hs : s ∈ paths) :
    s ∈ (initState paths).notes :=
  ((Inv_initState paths).2 s).mp (mem_foldl_insertNew ⟨[], [], [], []⟩ hs)

/-- Unfolding the top level: a successful run means both statements
prepared and the BFS loop itself produced the result. -/
theorem find_ok_loop {store : Store} {fs : FS} {paths : List RoamFile}
    {ex : RoamFile → Bool} {fuel : Nat} {r : ReferencedFiles}
    (h : find_file_references_recursive store fs paths ex fuel = .ok r) :
    refsLoop store fs ex fuel (initState paths) = .ok r := by
  unfold find_file_references_recursive at h
  cases h₁ : store.refPrepare with
  | error e => rw [h₁] at h; exact absurd h (by simp)
  | ok u =>
    rw [h₁] at h
    cases h₂ : store.assetPrepare with
    | error e => rw [h₂] at h; exact absurd h (by simp)
    | ok w => rw [h₂] at h; exact h

/-- Processing step failure: when the note at the front of the queue is not
excluded and its store lookup fails with `e`, the loop answers exactly
`Except.error e`, whatever the rest of the traversal state holds. -/
theorem refsLoop_head_error (store : Store) (fs : FS) (ex : RoamFile → Bool)
    (fuel : Nat) (st : TState) (n : RoamFile) (rest : List RoamFile) (e : Err)
    (hq : st.queue = n :: rest) (hex : ex n = false)
    (hf : find_files_referenced_by store fs n = .error e) :
    refsLoop store fs ex (fuel + 1) st = .error e := by
  obtain ⟨v, q, a, ns⟩ := st
  change q = n :: rest at hq
  subst hq
  simp [refsLoop, hex, hf]

theorem collectExcept_map_ok {α : Type} (l : List α) :
    collectExcept (l.map Except.ok) = (.ok l : Except Err (List α)) := by
  induction l with
  | nil => rfl
  | cons a l ih => simp [collectExcept, ih]

theorem collectExcept_first_error {α : Type} (pre : List α) (e : Err)
    (suf : List (Except Err α)) :
    collectExcept (pre.map Except.ok ++ .error e :: suf) = .error e := by
  induction pre with
  | nil => rfl
  | cons a pre ih => simp [collectExcept, ih]

/-! ### Concrete stores and file systems for the closed-instance theorems -/

/-- File-system model in which every target counts as absolute; `parent`
and `canonicalize` are never consulted on such targets. -/
def fsAbs : FS := ⟨fun _ => true, fun _ => none, fun a b => a ++ "/" ++ b, fun _ => none⟩

/-- Small real-layout file system: only `/roam/a.org` has a parent
directory (`/roam`) and only `/roam/img/pic.png` exists for
canonicalization. -/
def fsRoam : FS :=
  ⟨fun p => p == "/roam/img/pic.png" || p == "/elsewhere/pic.png",
   fun p => if p = "/roam/a.org" then some "/roam" else none,
   fun a b => a ++ "/" ++ b,
   fun p => if p = "/roam/img/pic.png" then some "/roam/img/pic.png" else none⟩

/-- Store with no links at all. -/
def emptyStore : Store := ⟨.ok (), .ok (), fun _ => .ok [], fun _ => .ok []⟩

/-- Store with the identifier-link cycle A→B, B→C, C→A and no assets. -/
def cycleStore : Store :=
  ⟨.ok (), .ok (),
   fun n => .ok (if n = "A" then [.ok "B"] else if n = "B" then [.ok "C"]
     else if n = "C" then [.ok "A"] else []),
   fun _ => .ok []⟩

/-- Store with the chain A→B, B→C where B also links the asset
`/b-asset.png`. -/
def chainStore : Store :=
  ⟨.ok (), .ok (),
   fun n => .ok (if n = "A" then [.ok "B"] else if n = "B" then [.ok "C"] else []),
   fun n => .ok (if n = "B" then [.ok "/b-asset.png"] else [])⟩

/-- Store whose referenced-notes query fails for every note. -/
def failStore : Store := ⟨.ok (), .ok (), fun _ => .error "store failure", fun _ => .ok []⟩

/-- Store whose referenced-notes statement fails to prepare. -/
def badPrepareStore : Store :=
  ⟨.error "malformed statement", .ok (), fun _ => .ok [], fun _ => .ok []⟩

/-- Store in which decoding the only asset row fails. -/
def assetDecodeFailStore : Store :=
  ⟨.ok (), .ok (), fun _ => .ok [], fun _ => .ok [.error "row decode failure"]⟩

/-- Store in which decoding the second referenced-note row fails. -/
def noteDecodeFailStore : Store :=
  ⟨.ok (), .ok (), fun _ => .ok [.ok "b", .error "row decode failure"], fun _ => .ok []⟩

/-- Store with one good note row, then an undecodable asset row followed by
a good one. -/
def mixedAssetStore : Store :=
  ⟨.ok (), .ok (), fun _ => .ok [.ok "b"],
   fun _ => .ok [.error "row decode failure", .ok "/q.png"]⟩

/-- Store in which the seed note links the same asset path twice. -/
def dupAssetStore : Store :=
  ⟨.ok (), .ok (), fun _ => .ok [],
   fun n => .ok (if n = "a" then [.ok "/p", .ok "/p"] else [])⟩

/-! ### Claim theorems -/

/-- Claim C1: for every store, exclusion predicate and traversal state —
however much of the traversal has already completed — if the store lookup
issued while processing the note at the front of the queue fails, the BFS
loop of `find_file_references_recursive` returns exactly that error.  The
`RunResult.error` constructor carries only the error, so no partial notes
or assets reach the caller. -/
theorem store_failure_propagates (store : Store) (fs : FS) (ex : RoamFile → Bool)
    (fuel : Nat) (st : TState) (n : RoamFile) (rest : List RoamFile) (e : Err)
    (hq : st.queue = n :: rest) (hex : ex n = false)
    (hf : find_files_referenced_by store fs n = .error e) :
    refsLoop store fs ex (fuel + 1) st = .error e :=
  refsLoop_head_error store fs ex fuel st n rest e hq hex hf

/-- Witness for C1: a mid-traversal state (two notes already recorded, one
asset collected) whose current note's query fails produces exactly that
error. -/
theorem store_failure_propagates_witness :
    refsLoop failStore fsAbs (fun _ => false) 3
      ⟨["x", "bad"], ["bad"], ["/a.png"], ["x", "bad"]⟩ = .error "store failure" :=
  store_failure_propagates failStore fsAbs (fun _ => false) 2
    ⟨["x", "bad"], ["bad"], ["/a.png"], ["x", "bad"]⟩ "bad" [] "store failure" rfl rfl rfl

/-- Counterexample to claim C2: in `assetDecodeFailStore` the asset query
(Query B) for note `a` returns one row whose decoding fails, yet the
lookup succeeds with an empty result instead of propagating the decoding
error — the row is skipped by `filter_map(|r| r.ok().flatten())`. -/
theorem asset_row_decode_skipped_cex :
    assetDecodeFailStore.assetRows "a" = .ok [.error "row decode failure"] ∧
    find_files_referenced_by assetDecodeFailStore fsAbs "a" = .ok ⟨[], []⟩ :=
  ⟨rfl, rfl⟩

/-- Claim C2 (amended): a decoding failure on a referenced-notes row
(Query A) is a hard error that aborts the lookup with that error, while a
decoding failure on a referenced-assets row (Query B) is silently skipped:
the lookup still succeeds and simply omits that row. -/
theorem row_decode_failure_semantics (store : Store) (fs : FS) (n : RoamFile) :
    (∀ (pre : List RoamFile) (e : Err) (suf : List (Except Err RoamFile)),
       store.refRows n = .ok (pre.map Except.ok ++ .error e :: suf) →
       find_files_referenced_by store fs n = .error e) ∧
    (∀ (ns : List RoamFile) (e : Err) (arows₁ arows₂ : List (Except Err RoamFile)),
       store.refRows n = .ok (ns.map Except.ok) →
       store.assetRows n = .ok (arows₁ ++ .error e :: arows₂) →
       find_files_referenced_by store fs n =
         .ok ⟨ns, arows₁.filterMap (assetOfRow fs n) ++
           arows₂.filterMap (assetOfRow fs n)⟩) := by
  constructor
  · intro pre e suf hr
    simp [find_files_referenced_by, hr, collectExcept_first_error]
  · intro ns e a₁ a₂ hr ha
    simp [find_files_referenced_by, hr, ha, collectExcept_map_ok, assetOfRow]

/-- Witness for the amended C2: a note-row decode failure aborts with the
error; an asset-row decode failure is skipped and the good rows survive. -/
theorem row_decode_failure_semantics_witness :
    find_files_referenced_by noteDecodeFailStore fsAbs "a" = .error "row decode failure" ∧
    find_files_referenced_by mixedAssetStore fsAbs "a" = .ok ⟨["b"], ["/q.png"]⟩ :=
  ⟨(row_decode_failure_semantics noteDecodeFailStore fsAbs "a").1
      ["b"] "row decode failure" [] rfl,
   (row_decode_failure_semantics mixedAssetStore fsAbs "a").2
      ["b"] "row decode failure" [] [.ok "/q.png"] rfl rfl⟩

/-- Counterexample to claim C3: when preparing the referenced-notes
statement fails, `find_file_references_recursive` panics (the source calls
`.unwrap()` on `conn.prepare`), it does not return the store error as its
`Result` error value. -/
theorem prepare_failure_panics_cex :
    find_file_references_recursive badPrepareStore fsAbs ["a"] (fun _ => false) 5
      = .panic ∧
    RunResult.panic ≠ RunResult.error "malformed statement" :=
  ⟨rfl, by decide⟩

/-- Claim C3 (amended): a store failure of either query issued during
traversal aborts the computation and is propagated unchanged as the
`Result` error value, but a malformed statement at preparation time makes
`find_file_references_recursive` panic (`unwrap()`), not return an
error. -/
theorem prepare_panic_query_error_semantics (store : Store) (fs : FS)
    (ex : RoamFile → Bool) :
    (∀ e paths fuel, store.refPrepare = .error e →
       find_file_references_recursive store fs paths ex fuel = .panic) ∧
    (∀ e u paths fuel, store.refPrepare = .ok u → store.assetPrepare = .error e →
       find_file_references_recursive store fs paths ex fuel = .panic) ∧
    (∀ a seeds e fuel, store.refPrepare = .ok () → store.assetPrepare = .ok () →
       ex a = false → find_files_referenced_by store fs a = .error e →
       find_file_references_recursive store fs (a :: seeds) ex (fuel + 1)
         = .error e) := by
  refine ⟨?_, ?_, ?_⟩
  · intro e paths fuel h₁
    simp [find_file_references_recursive, h₁]
  · intro e u paths fuel h₁ h₂
    simp [find_file_references_recursive, h₁, h₂]
  · intro a seeds e fuel h₁ h₂ hex hf
    have hpre : [a] <+: (initState (a :: seeds)).queue :=
      foldl_insertNew_queue_mono seeds ⟨[a], [a], [], [a]⟩
    obtain ⟨rest, hrest⟩ := hpre
    unfold find_file_references_recursive
    rw [h₁, h₂]
    exact refsLoop_head_error store fs ex fuel (initState (a :: seeds)) a rest e
      hrest.symm hex hf

/-- Witness for the amended C3: a bad prepare panics; a failing query on
the first seed is returned unchanged as the error value. -/
theorem prepare_panic_query_error_semantics_witness :
    find_file_references_recursive badPrepareStore fsAbs ["a"] (fun _ => false) 7
      = .panic ∧
    find_file_references_recursive failStore fsAbs ["a"] (fun _ => false) 3
      = .error "store failure" :=
  ⟨(prepare_panic_query_error_semantics badPrepareStore fsAbs (fun _ => false)).1
      "malformed statement" ["a"] 7 rfl,
   (prepare_panic_query_error_semantics failStore fsAbs (fun _ => false)).2.2
      "a" [] "store failure" 2 rfl rfl rfl rfl⟩

/-- Claim C4: in every successful run the result notes are duplicate-free;
the deduplicated seeds (in input order, each unique identifier once, first
occurrence kept — this is exactly `(initState seeds).notes`) form the
initial segment of the result, followed by breadth-first discoveries; and
every seed is present. -/
theorem seeds_dedup_first_seen (store : Store) (fs : FS) (seeds : List RoamFile)
    (ex : RoamFile → Bool) (fuel : Nat) (r : ReferencedFiles)
    (h : find_file_references_recursive store fs seeds ex fuel = .ok r) :
    r.notes.Nodup ∧ (initState seeds).notes <+: r.notes ∧
      ∀ s, s ∈ seeds → s ∈ r.notes := by
  have hloop := find_ok_loop h
  obtain ⟨h₁, h₂, h₃⟩ := refsLoop_ok_props store fs ex fuel (initState seeds) r hloop
  exact ⟨h₂ (Inv_initState seeds), h₁,
    fun s hs => preSubset h₁ (mem_initState_notes hs)⟩

/-- Witness for C4: seeds `["a", "a", "b"]` with a duplicate produce the
notes `["a", "b"]` — each unique seed exactly once, in first-seen order. -/
theorem seeds_dedup_first_seen_witness :
    (["a", "b"] : List RoamFile).Nodup ∧
    (initState ["a", "a", "b"]).notes <+: ["a", "b"] ∧
    "a" ∈ (["a", "b"] : List RoamFile) := by
  have h := seeds_dedup_first_seen dupAssetStore fsAbs ["a", "a", "b"]
    (fun _ => false) 5 ⟨["a", "b"], ["/p"]⟩ rfl
  exact ⟨h.1, h.2.1, h.2.2 "a" (by decide)⟩

/-- Claim C5: on the cyclic graph A→B, B→C, C→A with seed A and no
exclusions, the computation terminates — for every fuel of at least 4 the
loop completes, with the same answer — and returns exactly the notes A, B
and C, each once. -/
theorem cycle_closure_terminates (k : Nat) :
    find_file_references_recursive cycleStore fsAbs ["A"] (fun _ => false) (k + 4)
      = .ok ⟨["A", "B", "C"], []⟩ := rfl

/-- Claim C6: on the chain A→B, B→C with seed A and exclusion exactly on
B, the result notes are exactly A and B — C is never reached — and B's
asset `/b-asset.png` is not collected (the asset list is empty). -/
theorem exclusion_truncates (k : Nat) :
    find_file_references_recursive chainStore fsAbs ["A"] (fun n => n == "B") (k + 3)
      = .ok ⟨["A", "B"], []⟩ := rfl

/-- Claim C7: from any traversal state, notes already recorded persist as
an initial segment of the final notes of a successful run — in particular
a discovered node on which the exclusion predicate is true is never
removed; exclusion only stops expansion through it. -/
theorem excluded_node_stays_recorded (store : Store) (fs : FS)
    (ex : RoamFile → Bool) (fuel : Nat) (st : TState) (r : ReferencedFiles)
    (h : refsLoop store fs ex fuel st = .ok r) :
    st.notes <+: r.notes ∧ ∀ n, ex n = true → n ∈ st.notes → n ∈ r.notes := by
  have h₁ := (refsLoop_ok_props store fs ex fuel st r h).1
  exact ⟨h₁, fun n _ hn => preSubset h₁ hn⟩

/-- Witness for C7: the discovered node `x` is excluded and at the front
of the queue, yet it stays in the final notes. -/
theorem excluded_node_stays_recorded_witness :
    (⟨["a", "x"], ["x"], [], ["a", "x"]⟩ : TState).notes <+: ["a", "x"] ∧
    "x" ∈ (["a", "x"] : List RoamFile) := by
  have h := excluded_node_stays_recorded emptyStore fsAbs (fun n => n == "x") 2
    ⟨["a", "x"], ["x"], [], ["a", "x"]⟩ ⟨["a", "x"], []⟩ rfl
  exact ⟨h.1, h.2 "x" rfl (by decide)⟩

/-- Claim C8: a relative (non-absolute) file-link target is resolved by
joining it onto the parent directory of the referencing note's path and
canonicalizing; when the note path has no parent the resolution is `none`,
when it has parent `p` the resolution is whatever canonicalization of the
joined path yields (`none` when the path does not exist); and an
unresolvable asset is silently omitted from an otherwise successful
lookup — no error is raised. -/
theorem relative_asset_resolution (fs : FS) (note asset : FsPath)
    (habs : fs.isAbsolute asset = false) :
    (fs.parent note = none → try_resolve_asset_path fs note asset = none) ∧
    (∀ p, fs.parent note = some p →
       try_resolve_asset_path fs note asset = fs.canonicalize (fs.join p asset)) ∧
    (∀ store : Store, try_resolve_asset_path fs note asset = none →
       store.refRows note = .ok [] → store.assetRows note = .ok [.ok asset] →
       find_files_referenced_by store fs note = .ok ⟨[], []⟩) := by
  refine ⟨?_, ?_, ?_⟩
  · intro hp
    simp [try_resolve_asset_path, habs, hp]
  · intro p hp
    simp [try_resolve_asset_path, habs, hp]
  · intro store hnone h₁ h₂
    simp [find_files_referenced_by, h₁, h₂, collectExcept, assetOfRow, hnone]

/-- Witness for C8: `img/pic.png` referenced from `/roam/a.org` resolves
to the canonical `/roam/img/pic.png`; from a note without a parent
directory it resolves to nothing. -/
theorem relative_asset_resolution_witness :
    try_resolve_asset_path fsRoam "/roam/a.org" "img/pic.png"
      = some "/roam/img/pic.png" ∧
    try_resolve_asset_path fsRoam "other.org" "img/pic.png" = none :=
  ⟨((relative_asset_resolution fsRoam "/roam/a.org" "img/pic.png" (by decide)).2.1
      "/roam" rfl).trans (by decide),
   (relative_asset_resolution fsRoam "other.org" "img/pic.png" (by decide)).1 rfl⟩

/-- Claim C9: a file-link target that is already absolute is returned
unchanged by asset resolution — for every file system, in particular one
on which canonicalization fails everywhere (no file exists), so no
canonicalization is involved. -/
theorem absolute_asset_passthrough (fs : FS) (note asset : FsPath)
    (habs : fs.isAbsolute asset = true) :
    try_resolve_asset_path fs note asset = some asset := by
  simp [try_resolve_asset_path, habs]

/-- Witness for C9: the absolute target `/elsewhere/pic.png` passes
through unchanged even though `fsRoam` cannot canonicalize it (no such
file exists). -/
theorem absolute_asset_passthrough_witness :
    try_resolve_asset_path fsRoam "/roam/a.org" "/elsewhere/pic.png"
      = some "/elsewhere/pic.png" :=
  absolute_asset_passthrough fsRoam "/roam/a.org" "/elsewhere/pic.png" (by decide)

/-- Claim C10: in every successful run the returned asset list is
duplicate-free — each distinct resolved path appears at most once, however
many visited notes contributed it. -/
theorem assets_deduplicated (store : Store) (fs : FS) (seeds : List RoamFile)
    (ex : RoamFile → Bool) (fuel : Nat) (r : ReferencedFiles)
    (h : find_file_references_recursive store fs seeds ex fuel = .ok r) :
    r.assets.Nodup ∧ ∀ p, List.count p r.assets ≤ 1 := by
  have hloop := find_ok_loop h
  have h₃ := (refsLoop_ok_props store fs ex fuel (initState seeds) r hloop).2.2
  have hnd : r.assets.Nodup := by
    refine h₃ ?_
    rw [initState_allAssets]
    exact List.nodup_nil
  exact ⟨hnd, fun p => List.nodup_iff_count_le_one.mp hnd p⟩

/-- Witness for C10: the seed note links `/p` twice, yet the result keeps
it once. -/
theorem assets_deduplicated_witness :
    (["/p"] : List FsPath).Nodup ∧ List.count "/p" (["/p"] : List FsPath) ≤ 1 := by
  have h := assets_deduplicated dupAssetStore fsAbs ["a", "a", "b"]
    (fun _ => false) 5 ⟨["a", "b"], ["/p"]⟩ rfl
  exact ⟨h.1, h.2 "/p"⟩

end RoamRefs
